import Mathlib

/-!
Verification of the Daytona sandbox OpenSearch search adapter
(apps/api, sandbox search slice).

The TypeScript adapter is embedded shallowly: the filter compiler
`buildSearchQuery`, the sort resolver `getSortFieldMapping`, the request
builder `buildSearchBody` (including cursor decoding), the result mapper
`processSearchResponse` (including cursor encoding), and the index
lifecycle `createIndex` become executable Lean definitions, and the
testable properties of the specification are proved about them.
-/

namespace DaytonaSearch

/-- Sandbox lifecycle states.  The enum declaration is outside this slice;
the adapter code references `SandboxState.ERROR` and (for the valid query
states) `DESTROYED`.  The query logic treats states symbolically, so a
representative set of constructors suffices and only `error` / `destroyed`
are ever mentioned by the adapter itself. -/
inductive SandboxState : Type
  | creating
  | started
  | stopped
  | error
  | destroyed
  | archived
  deriving DecidableEq, Repr

/-- Sandbox desired states; the adapter references `SandboxDesiredState.DESTROYED`. -/
inductive SandboxDesiredState : Type
  | started
  | stopped
  | destroyed
  | archived
  deriving DecidableEq, Repr

/-- A JavaScript `Date` value, identified by its epoch offset.  Only its
ISO serialization is observable to the adapter. -/
structure JSDate : Type where
  epochMillis : Int
  deriving DecidableEq, Repr

/-- Abstract rendering of `Date.prototype.toISOString` (a JS builtin, not
repository code): an injective serialization of the date. -/
def JSDate.toISOString (d : JSDate) : String :=
  "ts:" ++ toString d.epochMillis

/-- A scalar value placed inside an OpenSearch query clause. -/
inductive FieldValue : Type
  | s (v : String)
  | i (n : Int)
  | b (v : Bool)
  | st (v : SandboxState)
  | dst (v : SandboxDesiredState)
  deriving DecidableEq, Repr

/-- The fragment of the OpenSearch `QueryContainer` type the adapter emits:
term / prefix / terms / range leaves and boolean composition with `must`
and an optional `must_not`. -/
inductive QueryContainer : Type
  | term (field : String) (value : FieldValue)
  | prefixMatch (field : String) (value : String)
  | termsIn (field : String) (values : List FieldValue)
  | range (field : String) (gte : Option FieldValue) (lte : Option FieldValue)
  | boolQuery (must : List QueryContainer) (mustNot : Option (List QueryContainer))
  deriving Repr

/-- The logical sort fields of `SandboxSearchSortField`. -/
inductive SandboxSearchSortField : Type
  | name
  | state
  | cpu
  | memory
  | disk
  | lastActivityAt
  | createdAt
  deriving DecidableEq, Repr

/-- Sort directions of `SandboxSearchSortDirection`. -/
inductive SandboxSearchSortDirection : Type
  | asc
  | desc
  deriving DecidableEq, Repr

/-- The `SandboxSearchFilters` interface (sandbox-search.interface). -/
structure SandboxSearchFilters : Type where
  id : Option String := none
  name : Option String := none
  labels : Option (List (String × String)) := none
  includeErroredDeleted : Option Bool := none
  states : Option (List SandboxState) := none
  snapshots : Option (List String) := none
  regionIds : Option (List String) := none
  minCpu : Option Int := none
  maxCpu : Option Int := none
  minMemoryGiB : Option Int := none
  maxMemoryGiB : Option Int := none
  minDiskGiB : Option Int := none
  maxDiskGiB : Option Int := none
  isPublic : Option Bool := none
  isRecoverable : Option Bool := none
  createdAtAfter : Option JSDate := none
  createdAtBefore : Option JSDate := none
  lastEventAfter : Option JSDate := none
  lastEventBefore : Option JSDate := none
  sort : Option SandboxSearchSortField := none
  order : Option SandboxSearchSortDirection := none

/-- JS truthiness of an optional string (`undefined` and the empty string
are falsy). -/
def strTruthy : Option String → Bool
  | some s => !(s == "")
  | none => false

/-- JS truthiness of `xs?.length` for an optional array (`undefined` and
an empty array are falsy). -/
def listTruthy : Option (List α) → Bool
  | some l => !l.isEmpty
  | none => false

/-- JS truthiness of an optional boolean. -/
def boolTruthy : Option Bool → Bool
  | some b => b
  | none => false

/-- The clause `if (filters?.x) must.push(prefix on x.toLowerCase())`
for the optional string filters `id` and `name`. -/
def strPrefixClause (field : String) (o : Option String) : List QueryContainer :=
  match o with
  | some s => if s == "" then [] else [.prefixMatch field s.toLower]
  | none => []

/-- The clause `if (filters?.xs?.length) must.push(terms on xs)` for the
list filters `states`, `snapshots`, `regionIds`. -/
def termsClause (field : String) (o : Option (List FieldValue)) : List QueryContainer :=
  match o with
  | some l => if l.isEmpty then [] else [.termsIn field l]
  | none => []

/-- The clause for the numeric range filters: present when either bound is
not `undefined`, spreading `gte` and `lte` from the present bounds. -/
def rangeClause (field : String) (gte lte : Option FieldValue) : List QueryContainer :=
  if gte.isSome || lte.isSome then [.range field gte lte] else []

/-- The clause `if (filters?.x !== undefined) must.push(term on x)` for
the tri-state boolean filters `isPublic`, `isRecoverable`. -/
def termOptClause (field : String) (o : Option FieldValue) : List QueryContainer :=
  match o with
  | some v => [.term field v]
  | none => []

/-- The clause for the date range filters (a `Date` object is always
truthy, so the JS truthiness test coincides with presence). -/
def dateRangeClause (field : String) (after before : Option JSDate) : List QueryContainer :=
  if after.isSome || before.isSome then
    [.range field (after.map (fun d => .s d.toISOString)) (before.map (fun d => .s d.toISOString))]
  else []

/-- The clauses for the labels filter: one exact term per key-value pair on
the flattened field named by the key. -/
def labelClauses (o : Option (List (String × String))) : List QueryContainer :=
  match o with
  | some kvs => kvs.map (fun kv => .term ("labels." ++ kv.1) (.s kv.2))
  | none => []

/-- The sub-clause excluded by default: `(state = ERROR AND desiredState = DESTROYED)`. -/
def erroredDeletedClause : QueryContainer :=
  .boolQuery [.term "state" (.st .error), .term "desiredState" (.dst .destroyed)] none

/-- `SandboxOpenSearchAdapter.buildSearchQuery`: compiles the organization
scope and the optional filters into a boolean query. -/
def buildSearchQuery (organizationId : String) (filters : Option SandboxSearchFilters) :
    QueryContainer :=
  let mustNot : List QueryContainer :=
    if boolTruthy (filters.bind (·.includeErroredDeleted)) then [] else [erroredDeletedClause]
  let must : List QueryContainer :=
    [QueryContainer.term "organizationId" (.s organizationId)]
    ++ strPrefixClause "id" (filters.bind (·.id))
    ++ strPrefixClause "name" (filters.bind (·.name))
    ++ termsClause "state" ((filters.bind (·.states)).map (·.map FieldValue.st))
    ++ termsClause "snapshot" ((filters.bind (·.snapshots)).map (·.map FieldValue.s))
    ++ termsClause "region" ((filters.bind (·.regionIds)).map (·.map FieldValue.s))
    ++ rangeClause "cpu" ((filters.bind (·.minCpu)).map FieldValue.i)
        ((filters.bind (·.maxCpu)).map FieldValue.i)
    ++ rangeClause "mem" ((filters.bind (·.minMemoryGiB)).map FieldValue.i)
        ((filters.bind (·.maxMemoryGiB)).map FieldValue.i)
    ++ rangeClause "disk" ((filters.bind (·.minDiskGiB)).map FieldValue.i)
        ((filters.bind (·.maxDiskGiB)).map FieldValue.i)
    ++ termOptClause "public" ((filters.bind (·.isPublic)).map FieldValue.b)
    ++ termOptClause "recoverable" ((filters.bind (·.isRecoverable)).map FieldValue.b)
    ++ dateRangeClause "createdAt" (filters.bind (·.createdAtAfter)) (filters.bind (·.createdAtBefore))
    ++ dateRangeClause "lastActivityAt" (filters.bind (·.lastEventAfter)) (filters.bind (·.lastEventBefore))
    ++ labelClauses (filters.bind (·.labels))
  .boolQuery must (if mustNot.isEmpty then none else some mustNot)

/-- The `must` list of a compiled boolean query. -/
def QueryContainer.mustList : QueryContainer → List QueryContainer
  | .boolQuery m _ => m
  | _ => []

/-- The `must_not` field of a compiled boolean query. -/
def QueryContainer.mustNotList : QueryContainer → Option (List QueryContainer)
  | .boolQuery _ mn => mn
  | _ => none

/-- `SandboxOpenSearchAdapter.getSortFieldMapping`: the fixed logical-to-
physical sort field table. -/
def getSortFieldMapping : SandboxSearchSortField → String
  | .name => "name"
  | .state => "state"
  | .cpu => "cpu"
  | .memory => "mem"
  | .disk => "disk"
  | .lastActivityAt => "lastActivityAt"
  | .createdAt => "createdAt"

/-- Modelled from the spec: the `SandboxSearchSortField` enum declaration
(search-sandboxes-query.dto) is outside this slice; per the spec its
logical field names are name, state, cpu, memory, disk, lastActivityAt,
createdAt.  TypeScript erases the enum type at runtime, so
`fieldMapping[sortField]` in `getSortFieldMapping` is a plain record
lookup over those strings that yields `undefined` (here `none`) for a key
outside the table; no exception is raised. -/
def getSortFieldMappingRaw (sortField : String) : Option String :=
  if sortField == "name" then some "name"
  else if sortField == "state" then some "state"
  else if sortField == "cpu" then some "cpu"
  else if sortField == "memory" then some "mem"
  else if sortField == "disk" then some "disk"
  else if sortField == "lastActivityAt" then some "lastActivityAt"
  else if sortField == "createdAt" then some "createdAt"
  else none

/-! ## JSON values and their serialization

`JSON.stringify` / `JSON.parse` are JS builtins; they are modelled over
the fragment of JSON the adapter exchanges: null, booleans, integers,
strings and arrays. -/

/-- A JSON value (fragment used by the adapter). -/
inductive Json : Type
  | null
  | bool (b : Bool)
  | num (n : Int)
  | str (s : String)
  | arr (elems : List Json)
  deriving Repr

/-- Lower-case hexadecimal digit. -/
def hexDigit (n : Nat) : Char :=
  if n < 10 then Char.ofNat (48 + n) else Char.ofNat (87 + n)

/-- How `JSON.stringify` renders one character inside a string literal. -/
def escapeChar (c : Char) : List Char :=
  if c = '"' then ['\\', '"']
  else if c = '\\' then ['\\', '\\']
  else if c = '\n' then ['\\', 'n']
  else if c = '\r' then ['\\', 'r']
  else if c = '\t' then ['\\', 't']
  else if c.toNat = 8 then ['\\', 'b']
  else if c.toNat = 12 then ['\\', 'f']
  else if c.toNat < 32 then ['\\', 'u', '0', '0', hexDigit (c.toNat / 16), hexDigit (c.toNat % 16)]
  else [c]

/-- Decimal rendering of a natural number. -/
def natToChars (n : Nat) : List Char :=
  if n = 0 then ['0'] else ((Nat.digits 10 n).map Nat.digitChar).reverse

/-- Decimal rendering of an integer. -/
def intToChars : Int → List Char
  | .ofNat n => natToChars n
  | .negSucc m => '-' :: natToChars (m + 1)

mutual

/-- `JSON.stringify` on the modelled fragment. -/
def jsonStringify : Json → List Char
  | .null => "null".data
  | .bool b => if b then "true".data else "false".data
  | .num n => intToChars n
  | .str s => '"' :: (s.data.map escapeChar).flatten ++ ['"']
  | .arr elems => '[' :: stringifyList elems ++ [']']

/-- Comma-separated rendering of array elements. -/
def stringifyList : List Json → List Char
  | [] => []
  | [x] => jsonStringify x
  | x :: xs => jsonStringify x ++ ',' :: stringifyList xs

end

/-- Value of a decimal digit character. -/
def digitVal (c : Char) : Nat := c.toNat - 48

/-- Value of the digit-character run, most significant first. -/
def digitsToNat (ds : List Char) : Nat :=
  ds.foldl (fun acc c => acc * 10 + digitVal c) 0

/-- Resolution of a string escape character. -/
def unescapeChar (e : Char) : Option Char :=
  if e = '"' then some '"'
  else if e = '\\' then some '\\'
  else if e = '/' then some '/'
  else if e = 'n' then some '\n'
  else if e = 'r' then some '\r'
  else if e = 't' then some '\t'
  else if e = 'b' then some (Char.ofNat 8)
  else if e = 'f' then some (Char.ofNat 12)
  else none

/-- Value of a hexadecimal digit character. -/
def hexVal (c : Char) : Option Nat :=
  if 48 ≤ c.toNat ∧ c.toNat ≤ 57 then some (c.toNat - 48)
  else if 97 ≤ c.toNat ∧ c.toNat ≤ 102 then some (c.toNat - 87)
  else if 65 ≤ c.toNat ∧ c.toNat ≤ 70 then some (c.toNat - 55)
  else none

/-- Resolves one escape sequence right after a backslash, returning the
denoted character and the remainder. -/
def readEscape : List Char → Option (Char × List Char)
  | [] => none
  | e :: rest2 =>
    match unescapeChar e with
    | some u => some (u, rest2)
    | none =>
      if e = 'u' then
        match rest2 with
        | h1 :: h2 :: h3 :: h4 :: rest3 =>
          match hexVal h1, hexVal h2, hexVal h3, hexVal h4 with
          | some a, some b, some c2, some d =>
            some (Char.ofNat (((a * 16 + b) * 16 + c2) * 16 + d), rest3)
          | _, _, _, _ => none
        | _ => none
      else none

/-- A resolved escape strictly consumes input. -/
theorem readEscape_length (l : List Char) (u : Char) (r : List Char)
    (h : readEscape l = some (u, r)) : r.length < l.length := by
  cases l with
  | nil => exact absurd h (by simp [readEscape])
  | cons e rest2 =>
    simp only [readEscape] at h
    cases he : unescapeChar e with
    | some w =>
      rw [he] at h
      cases h
      simp
    | none =>
      rw [he] at h
      by_cases hu : e = 'u'
      · simp only [hu, if_true] at h
        cases rest2 with
        | nil => exact absurd h (by simp)
        | cons h1 t1 =>
          cases t1 with
          | nil => exact absurd h (by simp)
          | cons h2 t2 =>
            cases t2 with
            | nil => exact absurd h (by simp)
            | cons h3 t3 =>
              cases t3 with
              | nil => exact absurd h (by simp)
              | cons h4 rest3 =>
                cases hv1 : hexVal h1 <;> cases hv2 : hexVal h2 <;>
                  cases hv3 : hexVal h3 <;> cases hv4 : hexVal h4 <;>
                  simp [hv1, hv2, hv3, hv4] at h
                obtain ⟨-, hr⟩ := h
                subst hr
                simp
                omega
      · simp [hu] at h

/-- Parses the body of a JSON string literal (after the opening quote),
returning the content and the remainder after the closing quote. -/
def parseStringBody : List Char → Option (List Char × List Char)
  | [] => none
  | c :: rest =>
    if c = '"' then some ([], rest)
    else if c = '\\' then
      match hre : readEscape rest with
      | some (u, rest2) => (parseStringBody rest2).map (fun p => (u :: p.1, p.2))
      | none => none
    else (parseStringBody rest).map (fun p => (c :: p.1, p.2))
  termination_by l => l.length
  decreasing_by
  · simp only [List.length_cons]
    exact Nat.lt_trans (readEscape_length _ _ _ hre) (Nat.lt_succ_self _)
  · simp_arith

/-- Parses a JSON integer literal. -/
def parseNumber (l : List Char) : Option (Int × List Char) :=
  if l.head? = some '-' then
    let ds := l.tail.takeWhile Char.isDigit
    if ds.isEmpty then none
    else some (-(digitsToNat ds : Int), l.tail.dropWhile Char.isDigit)
  else
    let ds := l.takeWhile Char.isDigit
    if ds.isEmpty then none
    else some ((digitsToNat ds : Int), l.dropWhile Char.isDigit)

mutual

/-- Fuel-indexed recursive-descent parser for the modelled JSON fragment. -/
def parseValue : Nat → List Char → Option (Json × List Char)
  | 0, _ => none
  | _ + 1, [] => none
  | fuel + 1, c :: rest =>
    if c = '"' then (parseStringBody rest).map (fun p => (.str ⟨p.1⟩, p.2))
    else if c = '[' then
      if rest.head? = some ']' then some (.arr [], rest.tail)
      else
        (parseElems fuel rest).bind (fun p =>
          if p.2.head? = some ']' then some (.arr p.1, p.2.tail) else none)
    else if c = 'n' then
      match rest with
      | 'u' :: 'l' :: 'l' :: r => some (.null, r)
      | _ => none
    else if c = 't' then
      match rest with
      | 'r' :: 'u' :: 'e' :: r => some (.bool true, r)
      | _ => none
    else if c = 'f' then
      match rest with
      | 'a' :: 'l' :: 's' :: 'e' :: r => some (.bool false, r)
      | _ => none
    else if c.isDigit || c = '-' then
      (parseNumber (c :: rest)).map (fun p => (.num p.1, p.2))
    else none

/-- Parses a non-empty comma-separated list of JSON values. -/
def parseElems : Nat → List Char → Option (List Json × List Char)
  | 0, _ => none
  | fuel + 1, l =>
    (parseValue fuel l).bind (fun p =>
      if p.2.head? = some ',' then
        (parseElems fuel p.2.tail).map (fun q => (p.1 :: q.1, q.2))
      else some ([p.1], p.2))

end

/-- `JSON.parse` on the modelled fragment: the whole input must be one value. -/
def jsonParse (cs : List Char) : Option Json :=
  match parseValue (cs.length + 1) cs with
  | some (v, []) => some v
  | _ => none

/-! ## Base64 (the `Buffer` encoding used for cursors) -/

/-- Character of a 6-bit group in the standard base64 alphabet. -/
def b64char (v : Nat) : Char :=
  if v < 26 then Char.ofNat (65 + v)
  else if v < 52 then Char.ofNat (97 + (v - 26))
  else if v < 62 then Char.ofNat (48 + (v - 52))
  else if v = 62 then '+'
  else '/'

/-- 6-bit value of a base64 alphabet character. -/
def b64val (c : Char) : Nat :=
  if 65 ≤ c.toNat ∧ c.toNat ≤ 90 then c.toNat - 65
  else if 97 ≤ c.toNat ∧ c.toNat ≤ 122 then c.toNat - 97 + 26
  else if 48 ≤ c.toNat ∧ c.toNat ≤ 57 then c.toNat - 48 + 52
  else if c = '+' then 62
  else 63

/-- Membership in the base64 alphabet (padding excluded). -/
def isB64Char (c : Char) : Bool :=
  (65 ≤ c.toNat && c.toNat ≤ 90) || (97 ≤ c.toNat && c.toNat ≤ 122) ||
    (48 ≤ c.toNat && c.toNat ≤ 57) || c == '+' || c == '/'

/-- `Buffer.prototype.toString('base64')`: standard alphabet with padding. -/
def b64encode : List Nat → List Char
  | [] => []
  | [a] => [b64char (a / 4), b64char (a % 4 * 16), '=', '=']
  | [a, b] => [b64char (a / 4), b64char (a % 4 * 16 + b / 16), b64char (b % 16 * 4), '=']
  | a :: b :: c :: rest =>
    b64char (a / 4) :: b64char (a % 4 * 16 + b / 16) :: b64char (b % 16 * 4 + c / 64) ::
      b64char (c % 64) :: b64encode rest

/-- Byte recovery from groups of alphabet characters (padding already
stripped); trailing groups of two or three characters yield the partial
final bytes, a lone trailing character is dropped, as Node does. -/
def b64decodeGroups : List Char → List Nat
  | c0 :: c1 :: c2 :: c3 :: rest =>
    (b64val c0 * 4 + b64val c1 / 16) :: (b64val c1 % 16 * 16 + b64val c2 / 4) ::
      (b64val c2 % 4 * 64 + b64val c3) :: b64decodeGroups rest
  | [c0, c1, c2] => [b64val c0 * 4 + b64val c1 / 16, b64val c1 % 16 * 16 + b64val c2 / 4]
  | [c0, c1] => [b64val c0 * 4 + b64val c1 / 16]
  | _ => []

/-- `Buffer.from(s, 'base64')`: forgiving decoding that ignores characters
outside the alphabet (including the `=` padding). -/
def b64decode (cs : List Char) : List Nat :=
  b64decodeGroups (cs.filter isB64Char)

/-! ## The cursor codec -/

/-- Cursor encoding as in `processSearchResponse`:
`Buffer.from(JSON.stringify([sortValue, id])).toString('base64')`. -/
def encodeCursor (v idv : Json) : String :=
  ⟨b64encode ((jsonStringify (.arr [v, idv])).map Char.toNat)⟩

/-- Cursor decoding as in `buildSearchBody`:
`JSON.parse(Buffer.from(cursor, 'base64').toString())`. -/
def decodeCursor (tok : String) : Option Json :=
  jsonParse ((b64decode tok.data).map Char.ofNat)

/-- Discriminates the two-element-array shape of a decoded cursor. -/
def isTwoElemArr : Json → Bool
  | .arr [_, _] => true
  | _ => false

/-! ## Request builder -/

/-- The errors the adapter raises on the search path. -/
inductive AdapterError : Type
  | badRequest (msg : String)
  deriving DecidableEq, Repr

/-- The fragment of `Search_RequestBody` the adapter populates. -/
structure SearchBody : Type where
  query : QueryContainer
  sort : List (String × SandboxSearchSortDirection)
  size : Nat
  searchAfter : Option Json := none

/-- `SandboxOpenSearchAdapter.buildSearchBody`: two-level sort, size
`limit + 1`, and `search_after` decoded from the cursor when one is
supplied; a cursor whose decoding throws raises `BadRequestException`. -/
def buildSearchBody (query : QueryContainer) (limit : Nat) (cursor : Option String)
    (sortField : SandboxSearchSortField) (sortDirection : SandboxSearchSortDirection) :
    Except AdapterError SearchBody :=
  let opensearchSortField := getSortFieldMapping sortField
  let base : SearchBody :=
    { query, sort := [(opensearchSortField, sortDirection), ("id", .desc)], size := limit + 1 }
  if strTruthy cursor then
    match cursor with
    | some c =>
      match decodeCursor c with
      | some v => .ok { base with searchAfter := some v }
      | none => .error (.badRequest ("Invalid cursor provided: " ++ c))
    | none => .ok base
  else .ok base

/-! ## Index lifecycle -/

/-- Shape of an OpenSearch `ResponseError` as far as `createIndex`
inspects it: whether the thrown value is a `ResponseError` and its
`body.error.type` (if any). -/
structure ResponseErrorInfo : Type where
  isResponseError : Bool
  errorType : Option String
  deriving DecidableEq, Repr

/-- Outcome of the `indices.create` call made by `createIndex`. -/
inductive CreateOutcome : Type
  | created
  | threw (e : ResponseErrorInfo)
  deriving DecidableEq, Repr

/-- The environment `createIndex` observes: the answer of the
`indices.exists` check, and what `indices.create` does if reached. -/
structure IndexEnv : Type where
  indexExists : Bool
  createOutcome : CreateOutcome
  deriving DecidableEq, Repr

/-- What a run of `createIndex` produced: its result and whether the
creation call was issued at all. -/
structure CreateIndexRun : Type where
  result : Except ResponseErrorInfo Unit
  attemptedCreate : Bool
  deriving Repr

/-- The already-exists test in the catch block of `createIndex`. -/
def isAlreadyExistsError (e : ResponseErrorInfo) : Bool :=
  e.isResponseError && (e.errorType == some "resource_already_exists_exception")

/-- `SandboxOpenSearchAdapter.createIndex`: skip when the index exists,
otherwise create it, swallowing a `resource_already_exists_exception`
response error and rethrowing anything else. -/
def createIndex (env : IndexEnv) : CreateIndexRun :=
  if env.indexExists then { result := .ok (), attemptedCreate := false }
  else
    match env.createOutcome with
    | .created => { result := .ok (), attemptedCreate := true }
    | .threw e =>
      if isAlreadyExistsError e then { result := .ok (), attemptedCreate := true }
      else { result := .error e, attemptedCreate := true }

/-! ## Result mapper -/

/-- The `_source` document of a hit: a JSON object, accessed by key. -/
structure SourceDoc : Type where
  fields : List (String × Json)

/-- Property access on a source document; an absent key is JS `undefined`,
which `JSON.stringify` then renders as null inside an array, so it is
modelled as `Json.null`. -/
def SourceDoc.get (d : SourceDoc) (k : String) : Json :=
  (((d.fields.find? (fun kv => kv.1 == k)).map (·.2)).getD .null)

/-- One search hit as `processSearchResponse` reads it. -/
structure SearchHit : Type where
  source : SourceDoc

/-- The `Sandbox` entity fields assigned by `mapSourceToSandbox`.  The
entity class itself is outside this slice; the mapper copies each source
property, turning absent/falsy timestamps into unset values. -/
structure Sandbox : Type where
  id : Json
  organizationId : Json
  name : Json
  region : Json
  runnerId : Json
  «class» : Json
  state : Json
  desiredState : Json
  snapshot : Json
  osUser : Json
  errorReason : Json
  recoverable : Json
  public : Json
  cpu : Json
  gpu : Json
  mem : Json
  disk : Json
  labels : Json
  backupState : Json
  autoStopInterval : Json
  autoArchiveInterval : Json
  autoDeleteInterval : Json
  createdAt : Option Json
  updatedAt : Option Json
  lastActivityAt : Option Json

/-- JS truthiness of a JSON value. -/
def jsTruthy : Json → Bool
  | .null => false
  | .bool b => b
  | .num n => !(n == 0)
  | .str s => !(s == "")
  | .arr _ => true

/-- `new Date(v)` guarded by truthiness, as in the timestamp assignments
of `mapSourceToSandbox`; the `Date` construction itself is kept as the
underlying value. -/
def dateOrUnset (v : Json) : Option Json :=
  if jsTruthy v then some v else none

/-- `SandboxOpenSearchAdapter.mapSourceToSandbox`. -/
def mapSourceToSandbox (source : SourceDoc) : Sandbox where
  id := source.get "id"
  organizationId := source.get "organizationId"
  name := source.get "name"
  region := source.get "region"
  runnerId := source.get "runnerId"
  «class» := source.get "class"
  state := source.get "state"
  desiredState := source.get "desiredState"
  snapshot := source.get "snapshot"
  osUser := source.get "osUser"
  errorReason := source.get "errorReason"
  recoverable := source.get "recoverable"
  public := source.get "public"
  cpu := source.get "cpu"
  gpu := source.get "gpu"
  mem := source.get "mem"
  disk := source.get "disk"
  labels := source.get "labels"
  backupState := source.get "backupState"
  autoStopInterval := source.get "autoStopInterval"
  autoArchiveInterval := source.get "autoArchiveInterval"
  autoDeleteInterval := source.get "autoDeleteInterval"
  createdAt := dateOrUnset (source.get "createdAt")
  updatedAt := dateOrUnset (source.get "updatedAt")
  lastActivityAt := dateOrUnset (source.get "lastActivityAt")

/-- The result shape of a search. -/
structure SandboxSearchResult : Type where
  items : List Sandbox
  nextCursor : Option String

/-- `SandboxOpenSearchAdapter.processSearchResponse`: trim the raw page to
`limit` items when it over-fetched, and encode the next cursor from the
last retained item when more results exist.  The raw hit list stands for
`response.body.hits?.hits || []`. -/
def processSearchResponse (response : Option (List SearchHit)) (limit : Nat)
    (sortField : SandboxSearchSortField) (_sortDirection : SandboxSearchSortDirection) :
    SandboxSearchResult :=
  let hits := response.getD []
  let hasMore := limit < hits.length
  let items := if hasMore then hits.take limit else hits
  let nextCursor : Option String :=
    if hasMore ∧ ¬items.isEmpty then
      match items.getLast? with
      | some lastItem =>
        some (encodeCursor (lastItem.source.get (getSortFieldMapping sortField))
          (lastItem.source.get "id"))
      | none => none
    else none
  { items := items.map (fun h => mapSourceToSandbox h.source), nextCursor }

/-- A printable ASCII character needing no JSON string escape: the
escape-free domain over which the byte-level codec is exercised. -/
abbrev PlainChar (c : Char) : Prop :=
  32 ≤ c.toNat ∧ c.toNat < 128 ∧ c ≠ '"' ∧ c ≠ '\\'

/-- A valid primary sort value inside a cursor: a plain string (keyword
or date rendering) or an integer (cpu, mem, disk). -/
def ValidSortValue : Json → Prop
  | .str s => ∀ c ∈ s.data, PlainChar c
  | .num _ => True
  | _ => False

instance decValidSortValue : (v : Json) → Decidable (ValidSortValue v)
  | .str s => inferInstanceAs (Decidable (∀ c ∈ s.data, PlainChar c))
  | .num _ => inferInstanceAs (Decidable True)
  | .null => inferInstanceAs (Decidable False)
  | .bool _ => inferInstanceAs (Decidable False)
  | .arr _ => inferInstanceAs (Decidable False)

/-- Recognizes a range clause on a given physical field. -/
def isRangeOn (field : String) : QueryContainer → Bool
  | .range f _ _ => f == field
  | _ => false

/-- Sample search hits for concrete evaluations. -/
def sampleHitA : SearchHit :=
  ⟨⟨[("id", Json.str "sb-2"), ("createdAt", Json.str "2024-05-01")]⟩⟩

/-- Second sample search hit. -/
def sampleHitB : SearchHit :=
  ⟨⟨[("id", Json.str "sb-1"), ("createdAt", Json.str "2024-04-01")]⟩⟩

/-! ## Claims -/

/-- The must list of a compiled query, spelled out. -/
theorem buildSearchQuery_mustList (org : String) (filters : Option SandboxSearchFilters) :
    (buildSearchQuery org filters).mustList =
      [QueryContainer.term "organizationId" (.s org)]
      ++ strPrefixClause "id" (filters.bind (·.id))
      ++ strPrefixClause "name" (filters.bind (·.name))
      ++ termsClause "state" ((filters.bind (·.states)).map (·.map FieldValue.st))
      ++ termsClause "snapshot" ((filters.bind (·.snapshots)).map (·.map FieldValue.s))
      ++ termsClause "region" ((filters.bind (·.regionIds)).map (·.map FieldValue.s))
      ++ rangeClause "cpu" ((filters.bind (·.minCpu)).map FieldValue.i)
          ((filters.bind (·.maxCpu)).map FieldValue.i)
      ++ rangeClause "mem" ((filters.bind (·.minMemoryGiB)).map FieldValue.i)
          ((filters.bind (·.maxMemoryGiB)).map FieldValue.i)
      ++ rangeClause "disk" ((filters.bind (·.minDiskGiB)).map FieldValue.i)
          ((filters.bind (·.maxDiskGiB)).map FieldValue.i)
      ++ termOptClause "public" ((filters.bind (·.isPublic)).map FieldValue.b)
      ++ termOptClause "recoverable" ((filters.bind (·.isRecoverable)).map FieldValue.b)
      ++ dateRangeClause "createdAt" (filters.bind (·.createdAtAfter))
          (filters.bind (·.createdAtBefore))
      ++ dateRangeClause "lastActivityAt" (filters.bind (·.lastEventAfter))
          (filters.bind (·.lastEventBefore))
      ++ labelClauses (filters.bind (·.labels)) := rfl

/-- The organization term clause is never a range clause. -/
theorem term_singleton_filter_isRangeOn (g a : String) (v : FieldValue) :
    (List.filter (isRangeOn g) [QueryContainer.term a v]) = [] := rfl

/-- A prefix clause is never a range clause. -/
theorem strPrefixClause_filter_isRangeOn (g fl : String) (o : Option String) :
    (strPrefixClause fl o).filter (isRangeOn g) = [] := by
  cases o with
  | none => rfl
  | some s =>
    simp only [strPrefixClause]
    split <;> simp [isRangeOn]

/-- A terms clause is never a range clause. -/
theorem termsClause_filter_isRangeOn (g fl : String) (o : Option (List FieldValue)) :
    (termsClause fl o).filter (isRangeOn g) = [] := by
  cases o with
  | none => rfl
  | some l =>
    simp only [termsClause]
    split <;> simp [isRangeOn]

/-- A term clause is never a range clause. -/
theorem termOptClause_filter_isRangeOn (g fl : String) (o : Option FieldValue) :
    (termOptClause fl o).filter (isRangeOn g) = [] := by
  cases o <;> simp [termOptClause, isRangeOn]

/-- Label clauses are never range clauses. -/
theorem labelClauses_filter_isRangeOn (g : String) (o : Option (List (String × String))) :
    (labelClauses o).filter (isRangeOn g) = [] := by
  cases o with
  | none => rfl
  | some kvs =>
    simp only [labelClauses]
    rw [List.filter_eq_nil_iff]
    intro a ha
    obtain ⟨kv, -, rfl⟩ := List.mem_map.mp ha
    simp [isRangeOn]

/-- A range clause on another field never survives the field filter. -/
theorem rangeClause_filter_isRangeOn_ne (g fl : String) (h : (fl == g) = false)
    (gte lte : Option FieldValue) :
    (rangeClause fl gte lte).filter (isRangeOn g) = [] := by
  simp only [rangeClause]
  split <;> simp [isRangeOn, h]

/-- A range clause on the filtered field survives the field filter. -/
theorem rangeClause_filter_isRangeOn_self (fl : String) (gte lte : Option FieldValue) :
    (rangeClause fl gte lte).filter (isRangeOn fl) = rangeClause fl gte lte := by
  simp only [rangeClause]
  split <;> simp [isRangeOn]

/-- A date range clause on another field never survives the field filter. -/
theorem dateRangeClause_filter_isRangeOn_ne (g fl : String) (h : (fl == g) = false)
    (a b : Option JSDate) :
    (dateRangeClause fl a b).filter (isRangeOn g) = [] := by
  simp only [dateRangeClause]
  split <;> simp [isRangeOn, h]

/-- C9: for each numeric range filter (cpu, memoryGiB, diskGiB), if at
least one bound is supplied the compiled must list holds exactly one
range clause on the corresponding field, carrying gte exactly when the
min is supplied and lte exactly when the max is supplied; with both
bounds absent no clause on that field is added. -/
theorem numeric_range_filters (org : String) (f : SandboxSearchFilters) :
    ((buildSearchQuery org (some f)).mustList.filter (isRangeOn "cpu") =
      if f.minCpu.isSome || f.maxCpu.isSome then
        [QueryContainer.range "cpu" (f.minCpu.map .i) (f.maxCpu.map .i)]
      else []) ∧
    ((buildSearchQuery org (some f)).mustList.filter (isRangeOn "mem") =
      if f.minMemoryGiB.isSome || f.maxMemoryGiB.isSome then
        [QueryContainer.range "mem" (f.minMemoryGiB.map .i) (f.maxMemoryGiB.map .i)]
      else []) ∧
    ((buildSearchQuery org (some f)).mustList.filter (isRangeOn "disk") =
      if f.minDiskGiB.isSome || f.maxDiskGiB.isSome then
        [QueryContainer.range "disk" (f.minDiskGiB.map .i) (f.maxDiskGiB.map .i)]
      else []) := by
  refine ⟨?_, ?_, ?_⟩
  · rw [buildSearchQuery_mustList]
    simp only [List.filter_append, Option.bind_some]
    rw [term_singleton_filter_isRangeOn, strPrefixClause_filter_isRangeOn,
      strPrefixClause_filter_isRangeOn, termsClause_filter_isRangeOn,
      termsClause_filter_isRangeOn, termsClause_filter_isRangeOn,
      termOptClause_filter_isRangeOn, termOptClause_filter_isRangeOn,
      labelClauses_filter_isRangeOn, rangeClause_filter_isRangeOn_self,
      rangeClause_filter_isRangeOn_ne "cpu" "mem" (by decide),
      rangeClause_filter_isRangeOn_ne "cpu" "disk" (by decide),
      dateRangeClause_filter_isRangeOn_ne "cpu" "createdAt" (by decide),
      dateRangeClause_filter_isRangeOn_ne "cpu" "lastActivityAt" (by decide)]
    simp [rangeClause, Option.isSome_map]
  · rw [buildSearchQuery_mustList]
    simp only [List.filter_append, Option.bind_some]
    rw [term_singleton_filter_isRangeOn, strPrefixClause_filter_isRangeOn,
      strPrefixClause_filter_isRangeOn, termsClause_filter_isRangeOn,
      termsClause_filter_isRangeOn, termsClause_filter_isRangeOn,
      termOptClause_filter_isRangeOn, termOptClause_filter_isRangeOn,
      labelClauses_filter_isRangeOn, rangeClause_filter_isRangeOn_self,
      rangeClause_filter_isRangeOn_ne "mem" "cpu" (by decide),
      rangeClause_filter_isRangeOn_ne "mem" "disk" (by decide),
      dateRangeClause_filter_isRangeOn_ne "mem" "createdAt" (by decide),
      dateRangeClause_filter_isRangeOn_ne "mem" "lastActivityAt" (by decide)]
    simp [rangeClause, Option.isSome_map]
  · rw [buildSearchQuery_mustList]
    simp only [List.filter_append, Option.bind_some]
    rw [term_singleton_filter_isRangeOn, strPrefixClause_filter_isRangeOn,
      strPrefixClause_filter_isRangeOn, termsClause_filter_isRangeOn,
      termsClause_filter_isRangeOn, termsClause_filter_isRangeOn,
      termOptClause_filter_isRangeOn, termOptClause_filter_isRangeOn,
      labelClauses_filter_isRangeOn, rangeClause_filter_isRangeOn_self,
      rangeClause_filter_isRangeOn_ne "disk" "cpu" (by decide),
      rangeClause_filter_isRangeOn_ne "disk" "mem" (by decide),
      dateRangeClause_filter_isRangeOn_ne "disk" "createdAt" (by decide),
      dateRangeClause_filter_isRangeOn_ne "disk" "lastActivityAt" (by decide)]
    simp [rangeClause, Option.isSome_map]

/-- C1: for every organizationId and every (possibly absent) filters
object, the query returned by buildSearchQuery contains an exact
term-equality clause on organizationId in its top-level AND (must) list;
no filter combination omits it. -/
theorem organization_clause_always_present (organizationId : String)
    (filters : Option SandboxSearchFilters) :
    QueryContainer.term "organizationId" (.s organizationId) ∈
      (buildSearchQuery organizationId filters).mustList := by
  simp [buildSearchQuery, QueryContainer.mustList]

/-- C2: when includeErroredDeleted is absent or false, buildSearchQuery
adds the negated sub-clause matching (state = ERROR AND desiredState =
DESTROYED); when it is true, no negated sub-clause is added. -/
theorem errored_deleted_exclusion (organizationId : String)
    (filters : Option SandboxSearchFilters) :
    (filters.bind (·.includeErroredDeleted) = some true →
      (buildSearchQuery organizationId filters).mustNotList = none) ∧
    (filters.bind (·.includeErroredDeleted) ≠ some true →
      (buildSearchQuery organizationId filters).mustNotList = some [erroredDeletedClause]) := by
  constructor
  · intro h
    simp [buildSearchQuery, QueryContainer.mustNotList, boolTruthy, h]
  · intro h
    cases ho : filters.bind (·.includeErroredDeleted) with
    | none => simp [buildSearchQuery, QueryContainer.mustNotList, boolTruthy, ho]
    | some b =>
      cases b with
      | true => exact absurd ho h
      | false => simp [buildSearchQuery, QueryContainer.mustNotList, boolTruthy, ho]

/-- Witness for C2 at concrete inputs: opting in removes the exclusion,
absent filters keep it. -/
theorem errored_deleted_exclusion_witness :
    (buildSearchQuery "org" (some { includeErroredDeleted := some true })).mustNotList = none ∧
    (buildSearchQuery "org" none).mustNotList = some [erroredDeletedClause] :=
  ⟨(errored_deleted_exclusion "org" (some { includeErroredDeleted := some true })).1 rfl,
   (errored_deleted_exclusion "org" none).2 (by simp)⟩

/-- C10: an empty-string id or name filter and an empty-array states,
snapshots, or regionIds filter each contribute no clause: the compiled
query is the one with the filter absent. -/
theorem empty_string_and_empty_array_filters_inert (org : String) (f : SandboxSearchFilters) :
    buildSearchQuery org (some { f with id := some "" }) =
        buildSearchQuery org (some { f with id := none }) ∧
    buildSearchQuery org (some { f with name := some "" }) =
        buildSearchQuery org (some { f with name := none }) ∧
    buildSearchQuery org (some { f with states := some [] }) =
        buildSearchQuery org (some { f with states := none }) ∧
    buildSearchQuery org (some { f with snapshots := some [] }) =
        buildSearchQuery org (some { f with snapshots := none }) ∧
    buildSearchQuery org (some { f with regionIds := some [] }) =
        buildSearchQuery org (some { f with regionIds := none }) :=
  ⟨rfl, rfl, rfl, rfl, rfl⟩

/-- C7 counterexample: at the concrete input "updatedAt" (a document
field that is not a logical sort field) the runtime record lookup of
getSortFieldMapping yields undefined (none); no InvalidArgument error is
raised, contrary to the claim. -/
theorem unknown_sort_field_yields_undefined :
    getSortFieldMappingRaw "updatedAt" = none := rfl

/-- C7 amended: the sort resolver maps each known logical sort field per
the fixed table, and for any input outside that known set the lookup
yields no mapping (undefined) rather than failing with an error. -/
theorem sort_field_mapping_table (s : String) :
    (getSortFieldMappingRaw "name" = some "name" ∧
     getSortFieldMappingRaw "state" = some "state" ∧
     getSortFieldMappingRaw "cpu" = some "cpu" ∧
     getSortFieldMappingRaw "memory" = some "mem" ∧
     getSortFieldMappingRaw "disk" = some "disk" ∧
     getSortFieldMappingRaw "lastActivityAt" = some "lastActivityAt" ∧
     getSortFieldMappingRaw "createdAt" = some "createdAt") ∧
    (s ∉ (["name", "state", "cpu", "memory", "disk", "lastActivityAt", "createdAt"] :
        List String) →
      getSortFieldMappingRaw s = none) := by
  refine ⟨⟨rfl, rfl, rfl, rfl, rfl, rfl, rfl⟩, ?_⟩
  intro h
  simp only [List.mem_cons, List.mem_singleton, not_or] at h
  obtain ⟨h1, h2, h3, h4, h5, h6, h7, -⟩ := h
  simp [getSortFieldMappingRaw, h1, h2, h3, h4, h5, h6, h7]

/-- Witness for C7's amended claim at the concrete out-of-table input
"gpu". -/
theorem sort_field_mapping_table_witness : getSortFieldMappingRaw "gpu" = none :=
  (sort_field_mapping_table "gpu").2 (by simp)

/-- C8: createIndex never surfaces an already-exists condition: when the
index exists it returns successfully without attempting creation, and
when the creation call throws a resource_already_exists_exception
response error the run still succeeds. -/
theorem createIndex_tolerates_existing (env : IndexEnv) :
    (env.indexExists = true →
      createIndex env = { result := .ok (), attemptedCreate := false }) ∧
    (∀ e, env.createOutcome = .threw e → isAlreadyExistsError e = true →
      (createIndex env).result = .ok ()) := by
  constructor
  · intro h
    simp [createIndex, h]
  · intro e he ha
    by_cases hx : env.indexExists <;> simp [createIndex, hx, he, ha]

/-- Witness for C8: a pre-existing index, and a lost creation race. -/
theorem createIndex_tolerates_existing_witness :
    createIndex ⟨true, .created⟩ = { result := .ok (), attemptedCreate := false } ∧
    (createIndex
        ⟨false, .threw ⟨true, some "resource_already_exists_exception"⟩⟩).result = .ok () :=
  ⟨(createIndex_tolerates_existing ⟨true, .created⟩).1 rfl,
   (createIndex_tolerates_existing
      ⟨false, .threw ⟨true, some "resource_already_exists_exception"⟩⟩).2 _ rfl rfl⟩

/-- C5: every search body built by buildSearchBody carries the two-level
sort specification: the resolved physical field in the requested
direction, then id always descending. -/
theorem search_body_sort_spec (q : QueryContainer) (limit : Nat) (cursor : Option String)
    (sf : SandboxSearchSortField) (d : SandboxSearchSortDirection) (body : SearchBody)
    (h : buildSearchBody q limit cursor sf d = .ok body) :
    body.sort = [(getSortFieldMapping sf, d), ("id", SandboxSearchSortDirection.desc)] := by
  unfold buildSearchBody at h
  by_cases hc : strTruthy cursor = true
  · cases cursor with
    | none => simp [strTruthy] at hc
    | some c =>
      simp only [hc, if_true] at h
      cases hd : decodeCursor c with
      | none => simp [hd] at h
      | some v =>
        simp only [hd] at h
        cases h
        rfl
  · simp only [Bool.not_eq_true] at hc
    simp only [hc, Bool.false_eq_true, if_false] at h
    cases h
    rfl

/-- Witness for C5 at a concrete request: memory sort ascending resolves
to the physical field mem with the descending id tie-break. -/
theorem search_body_sort_spec_witness :
    SearchBody.sort
        { query := .boolQuery [] none,
          sort := [("mem", SandboxSearchSortDirection.asc),
            ("id", SandboxSearchSortDirection.desc)],
          size := 6, searchAfter := none } =
      [("mem", SandboxSearchSortDirection.asc), ("id", SandboxSearchSortDirection.desc)] :=
  search_body_sort_spec (.boolQuery [] none) 5 none .memory .asc _ rfl

/-- C6 counterexample: the token "NQ==" reverses to the JSON value 5,
which is not a two-element sequence, yet cursor decoding accepts it and
buildSearchBody succeeds instead of rejecting it with InvalidCursor. -/
theorem cursor_shape_not_validated :
    decodeCursor "NQ==" = some (Json.num 5) ∧
    isTwoElemArr (Json.num 5) = false ∧
    (buildSearchBody (.boolQuery [] none) 10 (some "NQ==") .createdAt .desc).isOk = true :=
  ⟨rfl, rfl, rfl⟩

/-- C6 amended: for every non-empty cursor token, buildSearchBody fails
with the InvalidCursor client error exactly when the token's base64
reversal is not parseable JSON; no check that the parsed value is a
two-element sequence is performed. -/
theorem cursor_decode_error_iff_unparseable (q : QueryContainer) (limit : Nat) (tok : String)
    (sf : SandboxSearchSortField) (d : SandboxSearchSortDirection) (h : tok ≠ "") :
    ((buildSearchBody q limit (some tok) sf d).isOk = false ↔ decodeCursor tok = none) := by
  have ht : strTruthy (some tok) = true := by
    simp [strTruthy, h]
  unfold buildSearchBody
  simp only [ht, if_true]
  cases hd : decodeCursor tok <;> simp [hd, Except.isOk, Except.toBool]

/-- Witness for C6's amended claim: the token consisting of characters
outside the base64 alphabet reverses to the empty byte string, which is
not parseable JSON, so the request is rejected. -/
theorem cursor_decode_error_iff_unparseable_witness :
    (buildSearchBody (.boolQuery [] none) 10 (some "%%") .createdAt .desc).isOk = false :=
  (cursor_decode_error_iff_unparseable (.boolQuery [] none) 10 "%%" .createdAt .desc
    (by decide)).mpr rfl

/-- C3: with a positive limit, a raw page holding more than limit hits is
trimmed to exactly the first limit items in page order and nextCursor
encodes the last retained item's physical sort field value and id; a
page holding at most limit hits (including exactly limit) is returned
whole with nextCursor null. -/
theorem pagination_trim (hits : List SearchHit) (limit : Nat)
    (sf : SandboxSearchSortField) (sd : SandboxSearchSortDirection) (hpos : 0 < limit) :
    (limit < hits.length →
      (processSearchResponse (some hits) limit sf sd).items =
          (hits.take limit).map (fun h => mapSourceToSandbox h.source) ∧
      (processSearchResponse (some hits) limit sf sd).nextCursor =
          ((hits.take limit).getLast?).map (fun h =>
            encodeCursor (h.source.get (getSortFieldMapping sf)) (h.source.get "id"))) ∧
    (hits.length ≤ limit →
      (processSearchResponse (some hits) limit sf sd).items =
          hits.map (fun h => mapSourceToSandbox h.source) ∧
      (processSearchResponse (some hits) limit sf sd).nextCursor = none) := by
  constructor
  · intro h
    have hne : hits.take limit ≠ [] := by
      intro e
      have hl := congrArg List.length e
      simp only [List.length_take, List.length_nil] at hl
      omega
    cases hgl : (hits.take limit).getLast? with
    | none => exact absurd (List.getLast?_eq_none_iff.mp hgl) hne
    | some x =>
      constructor
      · simp [processSearchResponse, h]
      · simp [processSearchResponse, h, hgl, List.isEmpty_eq_true, hne]
  · intro h
    have hnm : ¬(limit < hits.length) := not_lt.mpr h
    constructor
    · simp [processSearchResponse, hnm]
    · simp [processSearchResponse, hnm]

/-- Witness for C3: two hits with limit 1 keep only the first hit and
point the cursor at it; the same two hits with limit 2 are returned
whole with a null cursor. -/
theorem pagination_trim_witness :
    (processSearchResponse (some [sampleHitA, sampleHitB]) 1 .createdAt .desc).items =
        [mapSourceToSandbox sampleHitA.source] ∧
    (processSearchResponse (some [sampleHitA, sampleHitB]) 1 .createdAt .desc).nextCursor =
        some (encodeCursor (Json.str "2024-05-01") (Json.str "sb-2")) ∧
    (processSearchResponse (some [sampleHitA, sampleHitB]) 2 .createdAt .desc).nextCursor =
        none := by
  have h1 := (pagination_trim [sampleHitA, sampleHitB] 1 .createdAt .desc (by decide)).1
    (by decide)
  have h2 := (pagination_trim [sampleHitA, sampleHitB] 2 .createdAt .desc (by decide)).2
    (by decide)
  refine ⟨?_, ?_, h2.2⟩
  · rw [h1.1]
    rfl
  · rw [h1.2]
    rfl

/-! ### Base64 round-trip -/

/-- Decoding a base64 alphabet character inverts encoding. -/
theorem b64val_b64char (v : Nat) (h : v < 64) : b64val (b64char v) = v :=
  (by decide : ∀ w, w < 64 → b64val (b64char w) = w) v h

/-- Encoded 6-bit groups land inside the alphabet. -/
theorem isB64Char_b64char (v : Nat) (h : v < 64) : isB64Char (b64char v) = true :=
  (by decide : ∀ w, w < 64 → isB64Char (b64char w) = true) v h

/-- Padding is outside the alphabet. -/
theorem isB64Char_pad : isB64Char '=' = false := by decide

/-- Base64 decoding inverts encoding on byte lists. -/
theorem b64_roundtrip (bs : List Nat) (h : ∀ b ∈ bs, b < 256) :
    b64decode (b64encode bs) = bs := by
  induction bs using b64encode.induct with
  | case1 => rfl
  | case2 a =>
    have ha : a < 256 := h a (by simp)
    have h1 : a / 4 < 64 := by omega
    have h2 : a % 4 * 16 < 64 := by omega
    simp [b64encode, b64decode, List.filter_cons, isB64Char_b64char _ h1,
      isB64Char_b64char _ h2, isB64Char_pad, b64decodeGroups,
      b64val_b64char _ h1, b64val_b64char _ h2]
    omega
  | case3 a b =>
    have ha : a < 256 := h a (by simp)
    have hb : b < 256 := h b (by simp)
    have h1 : a / 4 < 64 := by omega
    have h2 : a % 4 * 16 + b / 16 < 64 := by omega
    have h3 : b % 16 * 4 < 64 := by omega
    simp [b64encode, b64decode, List.filter_cons, isB64Char_b64char _ h1,
      isB64Char_b64char _ h2, isB64Char_b64char _ h3, isB64Char_pad, b64decodeGroups,
      b64val_b64char _ h1, b64val_b64char _ h2, b64val_b64char _ h3]
    omega
  | case4 a b c rest ih =>
    have ha : a < 256 := h a (by simp)
    have hb : b < 256 := h b (by simp)
    have hc : c < 256 := h c (by simp)
    have h1 : a / 4 < 64 := by omega
    have h2 : a % 4 * 16 + b / 16 < 64 := by omega
    have h3 : b % 16 * 4 + c / 64 < 64 := by omega
    have h4 : c % 64 < 64 := by omega
    have ihr := ih (fun x hx => h x (by simp [hx]))
    simp only [b64decode] at ihr
    simp [b64encode, b64decode, List.filter_cons, isB64Char_b64char _ h1,
      isB64Char_b64char _ h2, isB64Char_b64char _ h3, isB64Char_b64char _ h4,
      b64decodeGroups, b64val_b64char _ h1, b64val_b64char _ h2,
      b64val_b64char _ h3, b64val_b64char _ h4, ihr]
    omega

/-! ### Decimal printing round-trip -/

/-- The digit value of a printed digit. -/
theorem digitVal_digitChar (d : Nat) (h : d < 10) : digitVal (Nat.digitChar d) = d :=
  (by decide : ∀ w, w < 10 → digitVal (Nat.digitChar w) = w) d h

/-- Printed naturals consist of digit characters. -/
theorem natToChars_isDigit (n : Nat) : ∀ c ∈ natToChars n, c.isDigit = true := by
  intro c hc
  unfold natToChars at hc
  by_cases hn : n = 0
  · simp [hn] at hc
    subst hc
    decide
  · simp only [hn, if_false, List.mem_reverse, List.mem_map] at hc
    obtain ⟨d, hd, rfl⟩ := hc
    exact (by decide : ∀ w, w < 10 → (Nat.digitChar w).isDigit = true) d
      (Nat.digits_lt_base (by norm_num) hd)

/-- Printed naturals are ASCII. -/
theorem natToChars_ascii (n : Nat) : ∀ c ∈ natToChars n, c.toNat < 128 := by
  intro c hc
  unfold natToChars at hc
  by_cases hn : n = 0
  · simp [hn] at hc
    subst hc
    decide
  · simp only [hn, if_false, List.mem_reverse, List.mem_map] at hc
    obtain ⟨d, hd, rfl⟩ := hc
    exact (by decide : ∀ w, w < 10 → (Nat.digitChar w).toNat < 128) d
      (Nat.digits_lt_base (by norm_num) hd)

/-- A printed natural is never empty. -/
theorem natToChars_ne_nil (n : Nat) : natToChars n ≠ [] := by
  unfold natToChars
  by_cases hn : n = 0
  · simp [hn]
  · simp [hn, Nat.digits_ne_nil_iff_ne_zero]

/-- Folding digit characters back recovers the little-endian digit value. -/
theorem foldr_digitChars (ds : List Nat) (h : ∀ d ∈ ds, d < 10) :
    List.foldr (fun d acc => acc * 10 + digitVal (Nat.digitChar d)) 0 ds =
      Nat.ofDigits 10 ds := by
  induction ds with
  | nil => simp [Nat.ofDigits_nil]
  | cons d ds ih =>
    have hd := h d (by simp)
    simp only [List.foldr_cons, Nat.ofDigits_cons,
      ih (fun x hx => h x (by simp [hx])), digitVal_digitChar d hd]
    omega

/-- Reading back a printed natural recovers it. -/
theorem digitsToNat_natToChars (n : Nat) : digitsToNat (natToChars n) = n := by
  unfold digitsToNat natToChars
  by_cases hn : n = 0
  · simp [hn]
    rfl
  · simp only [hn, if_false]
    rw [List.foldl_reverse, List.foldr_map]
    rw [foldr_digitChars _ (fun d hd => Nat.digits_lt_base (by norm_num) hd)]
    exact Nat.ofDigits_digits 10 n

/-- The printed form of an integer is non-empty and starts with a digit or
a minus sign. -/
theorem intToChars_head (n : Int) :
    ∃ c cs, intToChars n = c :: cs ∧ (c.isDigit = true ∨ c = '-') := by
  cases n with
  | ofNat m =>
    obtain ⟨c0, cs0, e0⟩ := List.exists_cons_of_ne_nil (natToChars_ne_nil m)
    exact ⟨c0, cs0, by simpa [intToChars] using e0,
      Or.inl (natToChars_isDigit m c0 (by rw [e0]; simp))⟩
  | negSucc m => exact ⟨'-', natToChars (m + 1), rfl, Or.inr rfl⟩

/-- Printed integers are ASCII. -/
theorem intToChars_ascii (n : Int) : ∀ c ∈ intToChars n, c.toNat < 128 := by
  cases n with
  | ofNat m => exact natToChars_ascii m
  | negSucc m =>
    intro c hc
    simp only [intToChars, List.mem_cons] at hc
    rcases hc with rfl | hc
    · decide
    · exact natToChars_ascii (m + 1) c hc

/-- A digit character is none of the parser's dispatch characters. -/
theorem isDigit_not_special (c : Char) (h : c.isDigit = true) :
    c ≠ '"' ∧ c ≠ '[' ∧ c ≠ 'n' ∧ c ≠ 't' ∧ c ≠ 'f' ∧ c ≠ '-' ∧ c ≠ ']' ∧ c ≠ ',' := by
  refine ⟨?_, ?_, ?_, ?_, ?_, ?_, ?_, ?_⟩ <;>
    exact fun e => absurd (e ▸ h) (by decide)

/-- takeWhile over an append whose first part wholly satisfies the
predicate. -/
theorem takeWhile_append_all {p : Char → Bool} (l1 l2 : List Char)
    (h : ∀ c ∈ l1, p c = true) :
    (l1 ++ l2).takeWhile p = l1 ++ l2.takeWhile p := by
  induction l1 with
  | nil => simp
  | cons c cs ih =>
    simp only [List.cons_append, List.takeWhile_cons, h c (by simp)]
    rw [ih (fun x hx => h x (by simp [hx]))]
    simp

/-- dropWhile over an append whose first part wholly satisfies the
predicate. -/
theorem dropWhile_append_all {p : Char → Bool} (l1 l2 : List Char)
    (h : ∀ c ∈ l1, p c = true) :
    (l1 ++ l2).dropWhile p = l2.dropWhile p := by
  induction l1 with
  | nil => simp
  | cons c cs ih =>
    simp only [List.cons_append, List.dropWhile_cons, h c (by simp)]
    exact ih (fun x hx => h x (by simp [hx]))

/-- The number parser inverts integer printing when the remainder does
not begin with a digit. -/
theorem parseNumber_intToChars (n : Int) (rest : List Char)
    (hrest : ∀ c, rest.head? = some c → c.isDigit = false) :
    parseNumber (intToChars n ++ rest) = some (n, rest) := by
  have htw : ∀ m : Nat, (natToChars m ++ rest).takeWhile Char.isDigit = natToChars m := by
    intro m
    rw [takeWhile_append_all _ _ (natToChars_isDigit m)]
    cases rest with
    | nil => simp
    | cons r rs => simp [List.takeWhile_cons, hrest r rfl]
  have hdw : ∀ m : Nat, (natToChars m ++ rest).dropWhile Char.isDigit = rest := by
    intro m
    rw [dropWhile_append_all _ _ (natToChars_isDigit m)]
    cases rest with
    | nil => simp
    | cons r rs => simp [List.dropWhile_cons, hrest r rfl]
  cases n with
  | ofNat m =>
    obtain ⟨c0, cs0, e0⟩ := List.exists_cons_of_ne_nil (natToChars_ne_nil m)
    have hc0 : c0.isDigit = true := natToChars_isDigit m c0 (by rw [e0]; simp)
    have hdash : c0 ≠ '-' := (isDigit_not_special c0 hc0).2.2.2.2.2.1
    have e1 : intToChars (Int.ofNat m) = natToChars m := rfl
    rw [e1]
    unfold parseNumber
    rw [e0]
    simp only [List.cons_append, List.head?_cons]
    rw [if_neg (by simpa using hdash)]
    rw [← List.cons_append, ← e0, htw m, hdw m]
    rw [if_neg (by simpa using natToChars_ne_nil m)]
    rw [digitsToNat_natToChars m]
    rfl
  | negSucc m =>
    have e1 : intToChars (Int.negSucc m) ++ rest = '-' :: (natToChars (m + 1) ++ rest) := by
      simp [intToChars]
    rw [e1]
    unfold parseNumber
    rw [if_pos (by simp : ('-' :: (natToChars (m + 1) ++ rest)).head? = some '-')]
    simp only [List.tail_cons]
    rw [htw (m + 1), hdw (m + 1)]
    rw [if_neg (by simpa using natToChars_ne_nil (m + 1))]
    rw [digitsToNat_natToChars (m + 1)]
    norm_num [Int.negSucc_eq]

/-! ### String literal round-trip -/

/-- A plain character needs no escape. -/
theorem escapeChar_plain (c : Char) (h : PlainChar c) : escapeChar c = [c] := by
  obtain ⟨h1, h2, h3, h4⟩ := h
  have hn : c ≠ '\n' := fun e => absurd h1 (by subst e; decide)
  have hr : c ≠ '\r' := fun e => absurd h1 (by subst e; decide)
  have ht : c ≠ '\t' := fun e => absurd h1 (by subst e; decide)
  have h8 : ¬(c.toNat = 8) := by omega
  have h12 : ¬(c.toNat = 12) := by omega
  have h32 : ¬(c.toNat < 32) := by omega
  simp [escapeChar, h3, h4, hn, hr, ht, h8, h12, h32]

/-- Escaping a plain string is the identity. -/
theorem flatten_escape_plain (l : List Char) (h : ∀ c ∈ l, PlainChar c) :
    (l.map escapeChar).flatten = l := by
  induction l with
  | nil => rfl
  | cons c cs ih =>
    simp [escapeChar_plain c (h c (by simp)), ih (fun x hx => h x (by simp [hx]))]

/-- The string-body parser consumes a plain content run up to the closing
quote. -/
theorem parseStringBody_plain (l : List Char) (rest : List Char)
    (h : ∀ c ∈ l, PlainChar c) :
    parseStringBody (l ++ '"' :: rest) = some (l, rest) := by
  induction l with
  | nil => simp [parseStringBody]
  | cons c cs ih =>
    have hc := h c (by simp)
    simp only [List.cons_append, parseStringBody, hc.2.2.1, hc.2.2.2, if_false]
    rw [ih (fun x hx => h x (by simp [hx]))]
    rfl

/-- The value parser inverts stringification of a plain string atom. -/
theorem parseValue_str (fuel : Nat) (s : String) (rest : List Char)
    (h : ∀ c ∈ s.data, PlainChar c) :
    parseValue (fuel + 1) (jsonStringify (.str s) ++ rest) = some (.str s, rest) := by
  have e : jsonStringify (.str s) ++ rest = '"' :: (s.data ++ '"' :: rest) := by
    simp [jsonStringify, flatten_escape_plain s.data h]
  rw [e]
  simp only [parseValue, if_pos rfl]
  rw [parseStringBody_plain s.data rest h]
  rfl

/-- The value parser inverts stringification of an integer atom when the
remainder does not begin with a digit. -/
theorem parseValue_num (fuel : Nat) (n : Int) (rest : List Char)
    (hrest : ∀ c, rest.head? = some c → c.isDigit = false) :
    parseValue (fuel + 1) (jsonStringify (.num n) ++ rest) = some (.num n, rest) := by
  have e : jsonStringify (.num n) = intToChars n := by simp [jsonStringify]
  rw [e]
  obtain ⟨c0, cs0, e0, hc0⟩ := intToChars_head n
  rw [e0, List.cons_append]
  have hq : c0 ≠ '"' := by
    rcases hc0 with hd | rfl
    · exact (isDigit_not_special c0 hd).1
    · decide
  have hb : c0 ≠ '[' := by
    rcases hc0 with hd | rfl
    · exact (isDigit_not_special c0 hd).2.1
    · decide
  have hn : c0 ≠ 'n' := by
    rcases hc0 with hd | rfl
    · exact (isDigit_not_special c0 hd).2.2.1
    · decide
  have ht : c0 ≠ 't' := by
    rcases hc0 with hd | rfl
    · exact (isDigit_not_special c0 hd).2.2.2.1
    · decide
  have hf : c0 ≠ 'f' := by
    rcases hc0 with hd | rfl
    · exact (isDigit_not_special c0 hd).2.2.2.2.1
    · decide
  have hnum : (c0.isDigit || c0 = '-') = true := by
    rcases hc0 with hd | rfl
    · simp [hd]
    · simp
  simp only [parseValue, hq, hb, hn, ht, hf, if_false, hnum, if_true]
  rw [← List.cons_append, ← e0, parseNumber_intToChars n rest hrest]
  rfl

/-- The value parser inverts stringification of a two-element array whose
first element is a valid sort value and whose second is a plain string. -/
theorem parseValue_arrPair (fuel : Nat) (v : Json) (id : String) (rest : List Char)
    (hv : ValidSortValue v) (hid : ∀ c ∈ id.data, PlainChar c) :
    parseValue (fuel + 4) (jsonStringify (.arr [v, .str id]) ++ rest) =
      some (.arr [v, .str id], rest) := by
  have e : jsonStringify (.arr [v, .str id]) ++ rest =
      '[' :: (jsonStringify v ++ (',' :: (jsonStringify (.str id) ++ (']' :: rest)))) := by
    simp [jsonStringify, stringifyList]
  rw [e]
  obtain ⟨c0, s0, ev, hc0⟩ : ∃ c0 s0, jsonStringify v = c0 :: s0 ∧
      (c0.isDigit = true ∨ c0 = '-' ∨ c0 = '"') := by
    cases v with
    | str s =>
      exact ⟨'"', (s.data.map escapeChar).flatten ++ ['"'], by simp [jsonStringify],
        Or.inr (Or.inr rfl)⟩
    | num n =>
      obtain ⟨c0, cs0, e0, hc0⟩ := intToChars_head n
      exact ⟨c0, cs0, by simp [jsonStringify, e0], by tauto⟩
    | null => exact absurd hv (by simp [ValidSortValue])
    | bool b => exact absurd hv (by simp [ValidSortValue])
    | arr l => exact absurd hv (by simp [ValidSortValue])
  have hs1 : parseValue (fuel + 2)
      (jsonStringify v ++ (',' :: (jsonStringify (.str id) ++ (']' :: rest)))) =
      some (v, ',' :: (jsonStringify (.str id) ++ (']' :: rest))) := by
    cases v with
    | str s => exact parseValue_str (fuel + 1) s _ hv
    | num n =>
      refine parseValue_num (fuel + 1) n _ ?_
      intro c hc
      cases hc
      decide
    | null => exact absurd hv (by simp [ValidSortValue])
    | bool b => exact absurd hv (by simp [ValidSortValue])
    | arr l => exact absurd hv (by simp [ValidSortValue])
  have hs2 : parseValue (fuel + 1) (jsonStringify (.str id) ++ (']' :: rest)) =
      some (.str id, ']' :: rest) := parseValue_str fuel id _ hid
  have hne2 : ¬((jsonStringify v ++
      (',' :: (jsonStringify (.str id) ++ (']' :: rest)))).head? = some ']') := by
    rw [ev, List.cons_append, List.head?_cons]
    intro hcontra
    have hc : c0 = ']' := by
      injection hcontra
    rcases hc0 with hd | rfl | rfl
    · exact (isDigit_not_special c0 hd).2.2.2.2.2.2.1 hc
    · exact absurd hc (by decide)
    · exact absurd hc (by decide)
  have estep : fuel + 4 = (fuel + 3) + 1 := rfl
  rw [estep]
  simp only [parseValue]
  rw [if_neg (by decide : ¬('[' = '"')), if_pos trivial, if_neg hne2]
  have estep2 : fuel + 3 = (fuel + 2) + 1 := rfl
  rw [estep2]
  simp only [parseElems]
  rw [hs1]
  simp only [Option.some_bind, List.head?_cons, List.tail_cons]
  rw [if_pos trivial, hs2]
  simp only [Option.some_bind, List.head?_cons, List.tail_cons]
  rw [if_neg (by decide : ¬(some ']' = some ','))]
  simp only [Option.map_some', Option.some_bind, List.head?_cons, List.tail_cons]
  rw [if_pos trivial]

/-- The rendered shape of a two-element array. -/
theorem stringify_pair_shape (a b : Json) :
    jsonStringify (.arr [a, b]) =
      '[' :: (jsonStringify a ++ (',' :: (jsonStringify b ++ [']']))) := by
  simp [jsonStringify, stringifyList]

/-- Stringified valid sort values are ASCII. -/
theorem stringify_sortValue_ascii (v : Json) (hv : ValidSortValue v) :
    ∀ c ∈ jsonStringify v, c.toNat < 128 := by
  cases v with
  | str s =>
    intro c hc
    have e : jsonStringify (.str s) = '"' :: (s.data ++ ['"']) := by
      simp [jsonStringify, flatten_escape_plain s.data hv]
    rw [e] at hc
    simp only [List.mem_cons, List.mem_append, List.mem_singleton] at hc
    rcases hc with rfl | hc | rfl | h0
    · decide
    · exact (hv c hc).2.1
    · decide
    · exact absurd h0 (List.not_mem_nil c)
  | num n =>
    intro c hc
    have e : jsonStringify (.num n) = intToChars n := by simp [jsonStringify]
    rw [e] at hc
    exact intToChars_ascii n c hc
  | null => exact absurd hv (by simp [ValidSortValue])
  | bool b => exact absurd hv (by simp [ValidSortValue])
  | arr l => exact absurd hv (by simp [ValidSortValue])

/-- C4: decoding the cursor produced by encoding a valid sort value v and
an id yields the pair (v, id) back. -/
theorem cursor_roundtrip (v : Json) (id : String) (hv : ValidSortValue v)
    (hid : ∀ c ∈ id.data, PlainChar c) :
    decodeCursor (encodeCursor v (.str id)) = some (.arr [v, .str id]) := by
  unfold encodeCursor decodeCursor
  have hdata : (String.mk (b64encode
      ((jsonStringify (.arr [v, .str id])).map Char.toNat))).data
      = b64encode ((jsonStringify (.arr [v, .str id])).map Char.toNat) := rfl
  rw [hdata]
  have hidv : ValidSortValue (.str id) := hid
  have hascii : ∀ c ∈ jsonStringify (.arr [v, .str id]), c.toNat < 128 := by
    intro c hc
    rw [stringify_pair_shape v (.str id)] at hc
    simp only [List.mem_cons, List.mem_append, List.mem_singleton] at hc
    rcases hc with rfl | hc | rfl | hc | rfl | h0
    · decide
    · exact stringify_sortValue_ascii v hv c hc
    · decide
    · exact stringify_sortValue_ascii (.str id) hidv c hc
    · decide
    · exact absurd h0 (List.not_mem_nil c)
  have hbytes : ∀ b ∈ (jsonStringify (.arr [v, .str id])).map Char.toNat, b < 256 := by
    intro b hb
    obtain ⟨c, hc, rfl⟩ := List.mem_map.mp hb
    exact lt_trans (hascii c hc) (by norm_num)
  rw [b64_roundtrip _ hbytes, List.map_map]
  have hmap : (jsonStringify (.arr [v, .str id])).map (Char.ofNat ∘ Char.toNat)
      = jsonStringify (.arr [v, .str id]) := by
    simp [Function.comp_def, Char.ofNat_toNat]
  rw [hmap]
  unfold jsonParse
  have hlen : 3 ≤ (jsonStringify (.arr [v, .str id])).length := by
    rw [stringify_pair_shape v (.str id)]
    simp
    omega
  have hfuel : (jsonStringify (.arr [v, .str id])).length + 1
      = ((jsonStringify (.arr [v, .str id])).length - 3) + 4 := by omega
  rw [hfuel]
  have hp := parseValue_arrPair ((jsonStringify (.arr [v, .str id])).length - 3)
    v id [] hv hid
  rw [List.append_nil] at hp
  rw [hp]

/-- Witness for C4 at a concrete date sort value and id. -/
theorem cursor_roundtrip_witness :
    decodeCursor (encodeCursor (Json.str "2024-05-01") (Json.str "sb-42")) =
      some (Json.arr [Json.str "2024-05-01", Json.str "sb-42"]) :=
  cursor_roundtrip (Json.str "2024-05-01") "sb-42" (by decide) (by decide)

end DaytonaSearch
